import Mathlib

/-!
# Verification development for the `tty` package

A shallow embedding of `tty/pty.go`, `tty/session.go` and `tty/tty.go`.

* Calls that leave the package (the pty library, the terminal library, the
  remote stream, process signalling, `go` statements) are recorded as `Event`s
  in the trace of a `World`; what such a call returns is an explicit argument of
  the embedded function.
* A `World` also carries the resources the package acquires from the operating
  system: the open pty master devices and the spawned child processes.
* Go `nil` for a pointer or interface the code tests or assigns is `none`.
* A run-time panic is an outcome of the call that raises it: `Status.panicked`
  for a thread, `Ret.panic` for a call that returns a value otherwise. The calls
  made up to the panic stay in the trace.
* Each function below is the sequential behaviour of one call in one thread.
  `sync` locks have no effect on that behaviour and are left out.
-/

namespace Tty

/-! ## Data model -/

/-- Go `error` values, identified by their message. -/
abbrev Error := String

/-- A remote stream (`io.ReadWriteCloser` / `io.WriteCloser` value). -/
abbrev Stream := Nat

/-- An open `*os.File` of a pty master, identified by its descriptor. -/
abbrev File := Nat

/-- A child process handle (`command.Process`). -/
abbrev Pid := Nat

/-- A saved terminal mode (`*terminal.State`). -/
abbrev TermState := Nat

abbrev Byte := Fin 256

/-- The two signals `Stop` sends (`syscall.SIGTERM`, `syscall.SIGKILL`). -/
inductive Sig where
  | SIGTERM
  | SIGKILL
  deriving DecidableEq, Repr

/-- Calls that leave the package, in the order a thread performs them. -/
inductive Event where
  /-- tty.go:49 `go s.HandleConnection()` -/
  | goHandleConnection (id : Int)
  /-- session.go:51 `go session.ptyHandler.Run()` -/
  | goRun (fd : Int)
  /-- pty.go:70 `go func() ... io.Copy(pty.w, pty) ...` -/
  | goCopy (fd : Int)
  /-- session.go:76 `session.rw.Read(buf)` -/
  | rwRead (rw : Stream)
  /-- pty.go:122 `pty.ptyFile.Write(b)` -/
  | ptyWrite (f : File) (data : List Byte)
  /-- pty.go:100 `ptyDevice.Start(pty.command)` -/
  | ptyStart (command : String) (env : List String)
  /-- pty.go:104 `terminal.GetSize(0)` -/
  | getSize
  /-- pty.go:132 `ptyDevice.Setsize(pty.ptyFile, rows, cols)` -/
  | setsize (f : File) (rows cols : Int)
  /-- pty.go:116 `terminal.MakeRaw(int(os.Stdin.Fd()))` -/
  | makeRaw
  /-- pty.go:137 `pty.command.Wait()` -/
  | wait (p : Pid)
  /-- pty.go:148 `signal.Ignore(syscall.SIGWINCH)` -/
  | ignoreSIGWINCH
  /-- pty.go:150,152 `pty.command.Process.Signal(sig)` -/
  | signal (p : Pid) (sig : Sig)
  /-- pty.go:142 `terminal.Restore(0, pty.terminalInitState)` -/
  | restore (st : Option TermState)
  /-- pty.go:75 `pty.w.Close()` -/
  | sinkClose (w : Stream)
  deriving DecidableEq, Repr

/-- Operating-system resources held by the process, and the trace of calls. -/
structure World where
  /-- descriptors of the pty master devices that are open -/
  openPtys : List File
  /-- child processes that were spawned by `ptyDevice.Start` -/
  liveChildren : List Pid
  trace : List Event
  deriving DecidableEq, Repr

def World.emit (o : World) (e : Event) : World :=
  { o with trace := o.trace ++ [e] }

/-- The `*exec.Cmd` of a bridge after `ptyDevice.Start` succeeded. -/
structure Cmd where
  path : String
  env : List String
  process : Pid
  deriving DecidableEq, Repr

/-- pty.go:23 `type ptyManager struct`, for a bridge whose device was started. -/
structure ptyManager where
  fd : Int
  w : Option Stream
  ptyFile : File
  command : Cmd
  terminalInitState : Option TermState
  deriving DecidableEq, Repr

/-- session.go:15 `type ttySession struct` (the lock is left out). -/
structure ttySession where
  id : Int
  rw : Option Stream
  ptyHandler : ptyManager
  deriving DecidableEq, Repr

/-- tty.go:21 `type Manager struct`: the registry, a finite map keyed by id. -/
structure Manager where
  sessions : AList (fun _ : Int => ttySession)

/-- Number of entries of the registry (`len(m.sessions)`). -/
def Manager.size (m : Manager) : Nat := m.sessions.keys.length

/-! ## What the outside world returns -/

/-- Outcomes of the external calls made while a bridge is built by `NewPTY`. -/
structure SpawnEnv where
  /-- `os.Getenv("SHELL")` -/
  shell : String
  /-- `os.Environ()` -/
  environ : List String
  /-- `ptyDevice.Start`: the opened master and the started child, or an error -/
  start : Except Error (File × Pid)
  /-- `terminal.GetSize(0)`: `(cols, rows)`, or an error -/
  size : Except Error (Int × Int)

/-- Result of `terminal.MakeRaw`: the two returned values. -/
structure MakeRawResult where
  state : Option TermState
  err : Option Error
  deriving DecidableEq, Repr

/-- Result of one `Read` on the remote stream: `data` is `buf[:n]`. -/
structure ReadResult where
  data : List Byte
  err : Option Error
  deriving DecidableEq, Repr

/-- How far a thread got. -/
inductive Status where
  /-- the call returned -/
  | returned
  /-- the thread waits in a call that has not returned -/
  | blocked
  /-- a run-time panic (nil dereference, slice bounds) -/
  | panicked
  deriving DecidableEq, Repr

/-- What a call gives back: the returned value, or a run-time panic. -/
inductive Ret (α : Type) where
  | val (a : α)
  | panic
  deriving DecidableEq, Repr

/-! ## pty.go -/

/-- pty.go:131 `SetWinSize`. -/
def ptyManager.SetWinSize (o : World) (f : File) (rows cols : Int) : World :=
  o.emit (.setsize f rows cols)

/-- pty.go:96 `initEnv`. The receiver is the zero-valued struct made by `NewPTY`;
on success the result is that struct with `command`, `ptyFile`, `fd` filled in.
A successful `ptyDevice.Start` leaves one more open device and one more child;
a failed one leaves neither. The code below `Start` is all the code there is:
no call closes the device or signals the child on the way out. -/
def ptyManager.initEnv (o : World) (command : String) (envVars : List String)
    (env : SpawnEnv) : World × Except Error ptyManager :=
  let o1 := o.emit (.ptyStart command envVars)
  match env.start with
  | .error err => (o1, .error err)
  | .ok (f, p) =>
    let o2 : World := { o1 with openPtys := f :: o1.openPtys, liveChildren := p :: o1.liveChildren }
    let o3 := o2.emit .getSize
    match env.size with
    | .error err => (o3, .error err)
    | .ok (cols, rows) =>
      let o4 := ptyManager.SetWinSize o3 f rows cols
      (o4, .ok { fd := (f : Int), w := none, ptyFile := f,
                 command := { path := command, env := envVars, process := p },
                 terminalInitState := none })

/-- pty.go:31 `NewPTY`. -/
def NewPTY (o : World) (w : Option Stream) (env : SpawnEnv) : World × Except Error ptyManager :=
  match w with
  | none => (o, .error "writer is nil")
  | some s =>
    let commandName := if env.shell = "" then "bash" else env.shell
    let envVars := env.environ
    match ptyManager.initEnv o commandName envVars env with
    | (o1, .error err) => (o1, .error err)
    | (o1, .ok ptyMaster) => (o1, .ok { ptyMaster with w := some s })

/-- pty.go:147 `Stop`. -/
def ptyManager.Stop (o : World) (pty : ptyManager) : World :=
  ((o.emit .ignoreSIGWINCH).emit (.signal pty.command.process .SIGTERM)).emit
    (.signal pty.command.process .SIGKILL)

/-- pty.go:141 `Restore`. `terminal.Restore(0, state)` reads the saved mode
through the pointer `state`: with the nil pointer the call panics (nil pointer
dereference) and nothing is restored. The call is in the trace either way. -/
def ptyManager.Restore (o : World) (pty : ptyManager) : World × Status :=
  match pty.terminalInitState with
  | some st => (o.emit (.restore (some st)), .returned)
  | none => (o.emit (.restore none), .panicked)

/-- pty.go:55 `StopPtyAndRestore`. -/
def ptyManager.StopPtyAndRestore (o : World) (pty : ptyManager) : World × Status :=
  ptyManager.Restore (ptyManager.Stop o pty) pty

/-- pty.go:50 `Close`. -/
def ptyManager.Close (o : World) (pty : ptyManager) : World × Status :=
  ptyManager.StopPtyAndRestore o pty

/-- pty.go:115 `MakeRaw`. -/
def ptyManager.MakeRaw (o : World) (pty : ptyManager) (r : MakeRawResult) :
    World × ptyManager × Option Error :=
  (o.emit .makeRaw, { pty with terminalInitState := r.state }, r.err)

/-- pty.go:136 `Wait`. -/
def ptyManager.Wait (o : World) (pty : ptyManager) : World :=
  o.emit (.wait pty.command.process)

/-- pty.go:91 `ID`. -/
def ptyManager.ID (pty : ptyManager) : Int := pty.fd

/-- Result of the thread that executes `Run`. -/
structure RunResult where
  world : World
  pty : ptyManager
  status : Status
  /-- whether the device-to-sink copy goroutine was launched -/
  copyLaunched : Bool
  deriving DecidableEq, Repr

/-- pty.go:61 `Run`. `wt` is what `pty.Wait()` returns, `none` while the child
has not exited. The deferred `StopPtyAndRestore` runs at every return that
follows the `defer` statement; `Run` returns when the deferred call returns and
panics when the deferred call panics. -/
def ptyManager.Run (o : World) (pty : ptyManager) (mr : MakeRawResult)
    (wt : Option (Option Error)) : RunResult :=
  match pty.w with
  | none => ⟨o, pty, .returned, false⟩
  | some _ =>
    match ptyManager.MakeRaw o pty mr with
    | (o1, pty1, some _) =>
      let t := ptyManager.StopPtyAndRestore o1 pty1
      ⟨t.1, pty1, t.2, false⟩
    | (o1, pty1, none) =>
      let o2 := o1.emit (.goCopy pty1.fd)
      let o3 := ptyManager.Wait o2 pty1
      match wt with
      | none => ⟨o3, pty1, .blocked, true⟩
      | some _ =>
        let t := ptyManager.StopPtyAndRestore o3 pty1
        ⟨t.1, pty1, t.2, true⟩

/-- pty.go:70-77, the goroutine launched by `Run`. `cp` is the error value
`io.Copy(pty.w, pty)` returns, `none` while the copy is still going on. A panic
of the teardown leaves `pty.w.Close()` undone; `Close` on a nil sink panics. -/
def ptyManager.copyTask (o : World) (pty : ptyManager) (cp : Option (Option Error)) :
    World × Status :=
  match cp with
  | none => (o, .blocked)
  | some none => (o, .returned)
  | some (some _) =>
    match ptyManager.StopPtyAndRestore o pty with
    | (o1, .returned) =>
      match pty.w with
      | some w => (o1.emit (.sinkClose w), .returned)
      | none => (o1, .panicked)
    | (o1, st) => (o1, st)

/-! ## session.go -/

/-- session.go:22 `NewSession`. -/
def NewSession (o : World) (rw : Option Stream) (env : SpawnEnv) : World × Except Error ttySession :=
  match rw with
  | none => (o, .error "ReadWriteCloser is nil")
  | some s =>
    match NewPTY o (some s) env with
    | (o1, .error err) => (o1, .error err)
    | (o1, .ok handle) => (o1, .ok { rw := some s, ptyHandler := handle, id := handle.ID })

/-- session.go:38 `ID`. -/
def ttySession.ID (session : ttySession) : Int := session.id

/-- session.go:84 `Close`. -/
def ttySession.Close (o : World) (session : ttySession) : World × Status :=
  ptyManager.Close o session.ptyHandler

/-- pty.go:121 `Write` of the bridge; the returned pair is supplied by `res`. -/
def ptyManager.Write (o : World) (pty : ptyManager) (b : List Byte) (res : Int × Option Error) :
    World × Int × Option Error :=
  (o.emit (.ptyWrite pty.ptyFile b), res.1, res.2)

/-- session.go:54-60, the `onWrite` closure of `HandleConnection`. -/
def ttySession.onWrite (o : World) (session : ttySession) (res : Int × Option Error)
    (data : List Byte) : World :=
  match ptyManager.Write o session.ptyHandler data res with
  | (o1, _, some _) => o1
  | (o1, _, none) => o1

/-- session.go:74 `ReadAndHandle`. `r` is what the read returns. The buffer has
128 bytes, so `buf[:n]` panics when `n` exceeds 128; a read on a nil stream
panics. The result is the world, and `none` on panic, else the returned error. -/
def ttySession.ReadAndHandle (o : World) (session : ttySession) (r : ReadResult)
    (res : Int × Option Error) : World × Option (Option Error) :=
  match session.rw with
  | none => (o, none)
  | some rw =>
    let o1 := o.emit (.rwRead rw)
    match r.err with
    | some err => (o1, some (some err))
    | none =>
      if r.data.length ≤ 128 then (ttySession.onWrite o1 session res r.data, some none)
      else (o1, none)

/-- session.go:53-64, the `for` loop of `HandleConnection`. `reads` are the
results of the reads that have returned so far, `wr i` is what the bridge write
of the i-th iteration returns. -/
def ttySession.readLoop (session : ttySession) (wr : Nat → Int × Option Error) :
    World → Nat → List ReadResult → World × Status
  | o, _, [] => (o, .blocked)
  | o, i, r :: rest =>
    match ttySession.ReadAndHandle o session r (wr i) with
    | (o1, none) => (o1, .panicked)
    | (o1, some (some _)) => (o1, .returned)
    | (o1, some none) => ttySession.readLoop session wr o1 (i + 1) rest

/-- Result of the thread that executes `HandleConnection`. -/
structure HandleResult where
  world : World
  session : ttySession
  status : Status
  deriving DecidableEq, Repr

/-- session.go:49 `HandleConnection`. -/
def ttySession.HandleConnection (o : World) (session : ttySession)
    (wr : Nat → Int × Option Error) (reads : List ReadResult) : HandleResult :=
  let o0 := o.emit (.goRun session.ptyHandler.fd)
  match ttySession.readLoop session wr o0 0 reads with
  | (o1, .returned) => ⟨o1, { session with rw := none }, .returned⟩
  | (o1, st) => ⟨o1, session, st⟩

/-! ## tty.go -/

/-- tty.go:26 `NewManager`. -/
def NewManager : Manager := ⟨∅⟩

/-- tty.go:34 `CreateNewSession`. -/
def Manager.CreateNewSession (o : World) (m : Manager) (rw : Option Stream) (env : SpawnEnv) :
    World × Manager × Int × Option Error :=
  match NewSession o rw env with
  | (o1, .error err) => (o1, m, 0, some err)
  | (o1, .ok s) => (o1, ⟨m.sessions.insert s.ID s⟩, s.ID, none)

/-- tty.go:46 `StartSession`. -/
def Manager.StartSession (o : World) (m : Manager) (id : Int) : World × Manager × Option Error :=
  match m.sessions.lookup id with
  | some s => (o.emit (.goHandleConnection s.ID), m, none)
  | none => (o, m, some "id is not found")

/-- tty.go:56 `CloseSession`. When `s.Close()` panics the call ends there: the
`delete` is not reached and the registry is the one before the call. -/
def Manager.CloseSession (o : World) (m : Manager) (id : Int) :
    World × Manager × Ret (Option Error) :=
  match m.sessions.lookup id with
  | some s =>
    match ttySession.Close o s with
    | (o1, .returned) => (o1, ⟨m.sessions.erase id⟩, .val none)
    | (o1, _) => (o1, m, .panic)
  | none => (o, m, .val (some "id is not found"))

/-! ## Sample values, observers of traces, compositions of threads -/

/-- The world before any call: nothing open, nothing spawned, empty trace. -/
def World.init : World := ⟨[], [], []⟩

/-- A spawn in which everything succeeds: device 5, child 100, an 80x24 terminal. -/
def env0 : SpawnEnv := ⟨"", [], .ok (5, 100), .ok (80, 24)⟩

/-- The bridge `NewPTY` builds from `env0` for the stream 1. -/
def pty0 : ptyManager := ⟨5, some 1, 5, ⟨"bash", [], 100⟩, none⟩

/-- The session `NewSession` builds from `env0` for the stream 1. -/
def session0 : ttySession := ⟨5, some 1, pty0⟩

/-- The world after that session was built. -/
def world0 : World := ⟨[5], [100], [.ptyStart "bash" [], .getSize, .setsize 5 24 80]⟩

/-- The registry after `CreateNewSession` registered `session0`. -/
def manager0 : Manager := ⟨(∅ : AList (fun _ : Int => ttySession)).insert 5 session0⟩

/-- Every registry key is the descriptor of a pty device that is open. The code
never closes a device, so this holds of every registry the operations build. -/
def KeysOpen (o : World) (m : Manager) : Prop :=
  ∀ k ∈ m.sessions.keys, ∃ f ∈ o.openPtys, k = (f : Int)

/-- The operating system hands out a descriptor that is not open. -/
def FreshStart (o : World) (env : SpawnEnv) : Prop :=
  ∀ f p, env.start = .ok (f, p) → f ∉ o.openPtys

/-- States the manager reaches from `NewManager` by its operations, with the
calls of the session threads in between; every `ptyDevice.Start` hands out a
descriptor that is not open. -/
inductive Reachable : World → Manager → Prop where
  | init : Reachable World.init NewManager
  | create (o : World) (m : Manager) (rw : Option Stream) (env : SpawnEnv) :
      Reachable o m → FreshStart o env →
      Reachable (Manager.CreateNewSession o m rw env).1 (Manager.CreateNewSession o m rw env).2.1
  | start (o : World) (m : Manager) (id : Int) :
      Reachable o m →
      Reachable (Manager.StartSession o m id).1 (Manager.StartSession o m id).2.1
  | close (o : World) (m : Manager) (id : Int) :
      Reachable o m →
      Reachable (Manager.CloseSession o m id).1 (Manager.CloseSession o m id).2.1
  | call (o : World) (m : Manager) (e : Event) :
      Reachable o m → Reachable (o.emit e) m

/-- A second spawn in which everything succeeds: device 6, child 101. -/
def env1 : SpawnEnv := ⟨"", [], .ok (6, 101), .ok (80, 24)⟩

/-- The bridge `pty0` once `Run` has called `MakeRaw` and the mode 9 was saved. -/
def pty1 : ptyManager := ⟨5, some 1, 5, ⟨"bash", [], 100⟩, some 9⟩

/-- The session `session0` once it was started and the mode 9 was saved. -/
def session1 : ttySession := ⟨5, some 1, pty1⟩

/-- The registry that holds the started session `session1`. -/
def manager1 : Manager := ⟨(∅ : AList (fun _ : Int => ttySession)).insert 5 session1⟩

/-- A spawn whose device and child start, and whose size query fails. -/
def envNoTerminal : SpawnEnv := ⟨"", [], .ok (5, 100), .error "inappropriate ioctl for device"⟩

/-- Whether an event is a `terminal.Restore` call. -/
def Event.isRestore : Event → Bool
  | .restore _ => true
  | _ => false

/-- Whether an event is a signal sent to a child process. -/
def Event.isSignal : Event → Bool
  | .signal _ _ => true
  | _ => false

/-- Number of `terminal.Restore` calls in a trace. -/
def restoreCount (t : List Event) : Nat := t.countP Event.isRestore

/-- The calls of one `StopPtyAndRestore`, in order. -/
def teardownEvents (pty : ptyManager) : List Event :=
  [.ignoreSIGWINCH, .signal pty.command.process .SIGTERM,
   .signal pty.command.process .SIGKILL, .restore pty.terminalInitState]

/-- `n` calls of `Close` on the bridge, one after the other, up to the first
that panics. -/
def closeTimes : Nat → World → ptyManager → World × Status
  | 0, o, _ => (o, .returned)
  | n + 1, o, pty =>
    match ptyManager.Close o pty with
    | (o1, .returned) => closeTimes n o1 pty
    | (o1, st) => (o1, st)

/-- One lifecycle of a bridge: the thread that executes `Run`, the copy goroutine
when `Run` launched it, and `closes` calls of `Close` made once `Run` has called
`MakeRaw`. The calls of the threads are put in the trace one thread after the
other. A panic ends the lifecycle: no one recovers it and the process ends. -/
def lifecycle (o : World) (pty : ptyManager) (mr : MakeRawResult) (wt : Option (Option Error))
    (cp : Option (Option Error)) (closes : Nat) : World :=
  let r := ptyManager.Run o pty mr wt
  match r.status with
  | .panicked => r.world
  | _ =>
    let c := if r.copyLaunched then ptyManager.copyTask r.world r.pty cp else (r.world, .returned)
    match c.2 with
    | .panicked => c.1
    | _ => (closeTimes closes c.1 r.pty).1

/-- Whether `Run` reaches its deferred teardown: it has a sink, and either
`MakeRaw` failed or `Wait` returned. -/
def runTearsDown (pty : ptyManager) (mr : MakeRawResult) (wt : Option (Option Error)) : Bool :=
  pty.w.isSome && (mr.err.isSome || wt.isSome)

/-- Whether the copy goroutine tears down: it was launched and the copy failed. -/
def copyTearsDown (pty : ptyManager) (mr : MakeRawResult) (cp : Option (Option Error)) : Bool :=
  pty.w.isSome && mr.err.isNone && (match cp with | some (some _) => true | _ => false)

/-- The calls of the read loop when the reads return the chunks `cs`, one by one
and without error, and the next read fails. -/
def loopEvents (rw : Stream) (f : File) : List (List Byte) → List Event
  | [] => [.rwRead rw]
  | c :: cs => .rwRead rw :: .ptyWrite f c :: loopEvents rw f cs

/-- The bridge writes of a trace: device and payload, in order. -/
def writesOf (t : List Event) : List (File × List Byte) :=
  t.filterMap (fun e => match e with
    | .ptyWrite f d => some (f, d)
    | _ => none)

/-- Number of reads of the remote stream in a trace. -/
def readCount (t : List Event) : Nat :=
  t.countP (fun e => match e with
    | .rwRead _ => true
    | _ => false)

/-- Whether an event belongs to `StopPtyAndRestore`. -/
def Event.isTeardown : Event → Bool
  | .ignoreSIGWINCH => true
  | .signal _ _ => true
  | .restore _ => true
  | _ => false

/-- The threads of one started session: the thread that executes
`HandleConnection`, the `Run` goroutine it launches, and the copy goroutine when
`Run` launched it. The calls of the threads are put in the trace one thread
after the other. A panic ends the process, and the trace with it. -/
def sessionThreads (o : World) (session : ttySession) (wr : Nat → Int × Option Error)
    (reads : List ReadResult) (mr : MakeRawResult) (wt cp : Option (Option Error)) : World :=
  let h := ttySession.HandleConnection o session wr reads
  match h.status with
  | .panicked => h.world
  | _ =>
    let r := ptyManager.Run h.world session.ptyHandler mr wt
    match r.status with
    | .panicked => r.world
    | _ => if r.copyLaunched then (ptyManager.copyTask r.world r.pty cp).1 else r.world

/-! ## Facts about the registry map -/

theorem size_erase_of_mem (m : Manager) (id : Int) (h : id ∈ m.sessions) :
    (Manager.mk (m.sessions.erase id)).size + 1 = m.size := by
  have hk : id ∈ m.sessions.keys := AList.mem_keys.mp h
  have hpos : 0 < m.sessions.keys.length := List.length_pos_of_mem hk
  simp only [Manager.size, AList.keys_erase, List.length_erase_of_mem hk]
  omega

theorem size_insert_of_not_mem (m : Manager) (id : Int) (s : ttySession) (h : id ∉ m.sessions) :
    (Manager.mk (m.sessions.insert id s)).size = m.size + 1 := by
  have hk : id ∉ m.sessions.keys := fun hc => h (AList.mem_keys.mpr hc)
  simp [Manager.size, AList.keys_insert, List.erase_of_not_mem hk]

theorem size_insert_of_mem (m : Manager) (id : Int) (s : ttySession) (h : id ∈ m.sessions) :
    (Manager.mk (m.sessions.insert id s)).size = m.size := by
  have hk : id ∈ m.sessions.keys := AList.mem_keys.mp h
  have hpos : 0 < m.sessions.keys.length := List.length_pos_of_mem hk
  simp only [Manager.size, AList.keys_insert, List.length_cons, List.length_erase_of_mem hk]
  omega

/-! ## One teardown -/

theorem StopPtyAndRestore_saved (o : World) (pty : ptyManager) (st : TermState)
    (h : pty.terminalInitState = some st) :
    ptyManager.StopPtyAndRestore o pty =
      (⟨o.openPtys, o.liveChildren, o.trace ++ teardownEvents pty⟩, .returned) := by
  simp [ptyManager.StopPtyAndRestore, ptyManager.Restore, ptyManager.Stop, World.emit,
    teardownEvents, h]

theorem StopPtyAndRestore_nil (o : World) (pty : ptyManager)
    (h : pty.terminalInitState = none) :
    ptyManager.StopPtyAndRestore o pty =
      (⟨o.openPtys, o.liveChildren, o.trace ++ teardownEvents pty⟩, .panicked) := by
  simp [ptyManager.StopPtyAndRestore, ptyManager.Restore, ptyManager.Stop, World.emit,
    teardownEvents, h]

theorem StopPtyAndRestore_openPtys (o : World) (pty : ptyManager) :
    (ptyManager.StopPtyAndRestore o pty).1.openPtys = o.openPtys := by
  cases h : pty.terminalInitState with
  | none => rw [StopPtyAndRestore_nil o pty h]
  | some st => rw [StopPtyAndRestore_saved o pty st h]

theorem restoreCount_teardownEvents (pty : ptyManager) : restoreCount (teardownEvents pty) = 1 := by
  simp [restoreCount, teardownEvents, Event.isRestore]

theorem restoreCount_append (a b : List Event) :
    restoreCount (a ++ b) = restoreCount a + restoreCount b := by
  simp [restoreCount]

theorem closeTimes_saved (n : Nat) (o : World) (pty : ptyManager) (st : TermState)
    (h : pty.terminalInitState = some st) :
    (closeTimes n o pty).2 = .returned ∧
    restoreCount (closeTimes n o pty).1.trace = restoreCount o.trace + n := by
  induction n generalizing o with
  | zero => simp [closeTimes]
  | succ n ih =>
    simp only [closeTimes, ptyManager.Close, StopPtyAndRestore_saved _ pty st h]
    refine ⟨(ih _).1, ?_⟩
    rw [(ih _).2]
    simp only [restoreCount_append, restoreCount_teardownEvents]
    omega

/-! ## Registry lookups that fail or succeed -/

/-- C1: for every registry state and every id that is not a key of the registry,
`StartSession` and `CloseSession` both return the not-found error, perform no
call at all (no session launched, none closed: the world and its trace are the
ones before the call) and return the registry they were given. -/
theorem StartSession_CloseSession_not_found (o : World) (m : Manager) (id : Int)
    (h : id ∉ m.sessions) :
    Manager.StartSession o m id = (o, m, some "id is not found") ∧
    Manager.CloseSession o m id = (o, m, .val (some "id is not found")) := by
  have hl : m.sessions.lookup id = none := AList.lookup_eq_none.mpr h
  simp [Manager.StartSession, Manager.CloseSession, hl]

theorem StartSession_CloseSession_not_found_witness :
    (7 : Int) ∉ NewManager.sessions ∧
    Manager.StartSession World.init NewManager 7 = (World.init, NewManager, some "id is not found") ∧
    Manager.CloseSession World.init NewManager 7 =
      (World.init, NewManager, .val (some "id is not found")) :=
  ⟨by simp [NewManager], StartSession_CloseSession_not_found World.init NewManager 7 (by simp [NewManager])⟩

/-- For a present id whose bridge holds a saved terminal mode, `CloseSession`
returns no error, performs exactly the calls of that session's `Close`
(SIGWINCH ignored, SIGTERM, SIGKILL, restore) and returns the registry with the
key `id` erased; a `CloseSession(id)` that follows returns the not-found error. -/
theorem CloseSession_started (o : World) (m : Manager) (id : Int) (s : ttySession)
    (st : TermState) (h : m.sessions.lookup id = some s)
    (hst : s.ptyHandler.terminalInitState = some st) :
    (Manager.CloseSession o m id).2.2 = .val none ∧
    (Manager.CloseSession o m id).1.trace = o.trace ++
      [.ignoreSIGWINCH, .signal s.ptyHandler.command.process .SIGTERM,
       .signal s.ptyHandler.command.process .SIGKILL, .restore (some st)] ∧
    (Manager.CloseSession o m id).2.1.sessions = m.sessions.erase id ∧
    id ∉ (Manager.CloseSession o m id).2.1.sessions ∧
    (∀ j, j ≠ id →
      (Manager.CloseSession o m id).2.1.sessions.lookup j = m.sessions.lookup j) ∧
    (Manager.CloseSession o m id).2.1.size + 1 = m.size ∧
    (Manager.CloseSession (Manager.CloseSession o m id).1 (Manager.CloseSession o m id).2.1 id).2.2
      = .val (some "id is not found") := by
  have hc : Manager.CloseSession o m id =
      (⟨o.openPtys, o.liveChildren, o.trace ++ teardownEvents s.ptyHandler⟩,
        ⟨m.sessions.erase id⟩, .val none) := by
    simp [Manager.CloseSession, h, ttySession.Close, ptyManager.Close,
      StopPtyAndRestore_saved o s.ptyHandler st hst]
  have hmem : id ∈ m.sessions := by
    rw [← AList.lookup_isSome, h]; rfl
  rw [hc]
  refine ⟨rfl, ?_, rfl, ?_, ?_, ?_, ?_⟩
  · simp [teardownEvents, hst]
  · simp
  · intro j hj
    exact AList.lookup_erase_ne hj
  · exact size_erase_of_mem m id hmem
  · simp [Manager.CloseSession]

theorem NewSession_env0 : NewSession World.init (some 1) env0 = (world0, .ok session0) := by
  rfl

theorem lookup_manager0 : manager0.sessions.lookup 5 = some session0 := by
  exact AList.lookup_insert _

theorem lookup_manager1 : manager1.sessions.lookup 5 = some session1 := by
  exact AList.lookup_insert _

theorem CloseSession_started_example :
    (Manager.CloseSession world0 manager1 5).2.2 = .val none ∧
    (Manager.CloseSession world0 manager1 5).1.trace = world0.trace ++
      [.ignoreSIGWINCH, .signal 100 .SIGTERM, .signal 100 .SIGKILL, .restore (some 9)] ∧
    (5 : Int) ∉ (Manager.CloseSession world0 manager1 5).2.1.sessions :=
  have h := CloseSession_started world0 manager1 5 session1 9 lookup_manager1 rfl
  ⟨h.1, h.2.1, h.2.2.2.1⟩

/-- C2, the code at the failing input: a session is created (`world0`,
`manager0` are what `CreateNewSession` returns) and `CloseSession` is called on
its id before the session was started. The id is present, `s.Close()` signals
the child and calls `terminal.Restore(0, nil)`, which panics: `CloseSession`
returns nothing, the `delete` is not reached and the id is still a key that maps
to the same session. -/
theorem CloseSession_never_started_panics :
    Manager.CreateNewSession World.init NewManager (some 1) env0 = (world0, manager0, 5, none) ∧
    manager0.sessions.lookup 5 = some session0 ∧
    (Manager.CloseSession world0 manager0 5).2.2 = .panic ∧
    (Manager.CloseSession world0 manager0 5).1.trace = world0.trace ++
      [.ignoreSIGWINCH, .signal 100 .SIGTERM, .signal 100 .SIGKILL, .restore none] ∧
    (Manager.CloseSession world0 manager0 5).2.1.sessions.lookup 5 = some session0 := by
  have hc : Manager.CloseSession world0 manager0 5 =
      (⟨world0.openPtys, world0.liveChildren, world0.trace ++ teardownEvents session0.ptyHandler⟩,
        manager0, .panic) := by
    simp [Manager.CloseSession, lookup_manager0, ttySession.Close, ptyManager.Close,
      StopPtyAndRestore_nil world0 session0.ptyHandler rfl]
  rw [hc]
  exact ⟨rfl, lookup_manager0, rfl, rfl, lookup_manager0⟩

/-! ## Creating sessions -/

theorem initEnv_ok (o : World) (command : String) (envVars : List String) (env : SpawnEnv)
    (f : File) (p : Pid) (cols rows : Int)
    (hs : env.start = .ok (f, p)) (hz : env.size = .ok (cols, rows)) :
    ptyManager.initEnv o command envVars env =
      (⟨f :: o.openPtys, p :: o.liveChildren,
        o.trace ++ [.ptyStart command envVars, .getSize, .setsize f rows cols]⟩,
       .ok ⟨(f : Int), none, f, ⟨command, envVars, p⟩, none⟩) := by
  simp [ptyManager.initEnv, hs, hz, ptyManager.SetWinSize, World.emit]

theorem initEnv_start_error (o : World) (command : String) (envVars : List String)
    (env : SpawnEnv) (e : Error) (hs : env.start = .error e) :
    ptyManager.initEnv o command envVars env = (o.emit (.ptyStart command envVars), .error e) := by
  simp [ptyManager.initEnv, hs]

theorem initEnv_size_error (o : World) (command : String) (envVars : List String)
    (env : SpawnEnv) (f : File) (p : Pid) (e : Error)
    (hs : env.start = .ok (f, p)) (hz : env.size = .error e) :
    ptyManager.initEnv o command envVars env =
      (⟨f :: o.openPtys, p :: o.liveChildren, o.trace ++ [.ptyStart command envVars, .getSize]⟩,
       .error e) := by
  simp [ptyManager.initEnv, hs, hz, World.emit]

/-- The three ways `NewSession` ends on a stream that is not nil. -/
theorem NewSession_cases (o : World) (rw : Stream) (env : SpawnEnv) :
    (∃ e, env.start = .error e ∧ (NewSession o (some rw) env).2 = .error e) ∨
    (∃ f p e, env.start = .ok (f, p) ∧ env.size = .error e ∧
      (NewSession o (some rw) env).2 = .error e) ∨
    (∃ f p cols rows cmd, env.start = .ok (f, p) ∧ env.size = .ok (cols, rows) ∧
      (NewSession o (some rw) env).2 =
        .ok ⟨(f : Int), some rw, ⟨(f : Int), some rw, f, cmd, none⟩⟩) := by
  rcases hs : env.start with e | ⟨f, p⟩
  · left
    exact ⟨e, rfl, by simp [NewSession, NewPTY, initEnv_start_error _ _ _ _ _ hs]⟩
  · rcases hz : env.size with e | ⟨cols, rows⟩
    · right; left
      exact ⟨f, p, e, rfl, rfl, by simp [NewSession, NewPTY, initEnv_size_error _ _ _ _ _ _ _ hs hz]⟩
    · right; right
      exact ⟨f, p, cols, rows, ⟨if env.shell = "" then "bash" else env.shell, env.environ, p⟩,
        rfl, rfl, by simp [NewSession, NewPTY, initEnv_ok _ _ _ _ _ _ _ _ hs hz, ptyManager.ID]⟩

/-- C4: `CreateNewSession` returns an error (with id 0) and the registry it was
given whenever the remote stream is nil, `ptyDevice.Start` fails (device
allocation or process spawn) or the terminal size query fails; for a nil stream
the world is the one before the call: no device opened, no child spawned, no
call made. -/
theorem CreateNewSession_failure (o : World) (m : Manager) (rw : Option Stream) (env : SpawnEnv)
    (h : rw = none ∨ (∃ e, env.start = .error e) ∨ (∃ e, env.size = .error e)) :
    (Manager.CreateNewSession o m rw env).2.2.2 ≠ none ∧
    (Manager.CreateNewSession o m rw env).2.2.1 = 0 ∧
    (Manager.CreateNewSession o m rw env).2.1 = m ∧
    (rw = none → (Manager.CreateNewSession o m rw env).1 = o ∧
      (Manager.CreateNewSession o m rw env).1.openPtys = o.openPtys ∧
      (Manager.CreateNewSession o m rw env).1.liveChildren = o.liveChildren ∧
      (Manager.CreateNewSession o m rw env).1.trace = o.trace) := by
  cases rw with
  | none => simp [Manager.CreateNewSession, NewSession]
  | some s =>
    have herr : ∃ e, (NewSession o (some s) env).2 = .error e := by
      rcases NewSession_cases o s env with ⟨e, _, h2⟩ | ⟨f, p, e, _, _, h2⟩ |
        ⟨f, p, cols, rows, cmd, hs, hz, _⟩
      · exact ⟨e, h2⟩
      · exact ⟨e, h2⟩
      · rcases h with h | ⟨e, h⟩ | ⟨e, h⟩
        · cases h
        · rw [hs] at h; cases h
        · rw [hz] at h; cases h
    obtain ⟨e, he⟩ := herr
    rcases hN : NewSession o (some s) env with ⟨o1, r⟩
    rw [hN] at he
    simp only at he
    subst he
    simp [Manager.CreateNewSession, hN]

theorem CreateNewSession_failure_witness :
    (Manager.CreateNewSession world0 manager0 none env0).2.2.2 ≠ none ∧
    (Manager.CreateNewSession world0 manager0 none env0).2.1 = manager0 ∧
    (Manager.CreateNewSession world0 manager0 none env0).1 = world0 :=
  have h := CreateNewSession_failure world0 manager0 none env0 (Or.inl rfl)
  ⟨h.1, h.2.2.1, (h.2.2.2 rfl).1⟩

/-- What a successful `CreateNewSession` does to the registry: the returned id
is the id of the session `NewSession` built, the registry afterwards maps that
id to that session and every other id to what it mapped to before; the registry
has one more entry when the id was not a key, and as many when it was. The id is
not a key whenever every key is the descriptor of an open device and the
descriptor handed out is not open. -/
theorem CreateNewSession_success (o : World) (m : Manager) (rw : Stream) (env : SpawnEnv)
    (h : (Manager.CreateNewSession o m (some rw) env).2.2.2 = none) :
    (∃ s, (NewSession o (some rw) env).2 = .ok s ∧
      s.id = (Manager.CreateNewSession o m (some rw) env).2.2.1 ∧ s.rw = some rw ∧
      (Manager.CreateNewSession o m (some rw) env).2.1.sessions.lookup
        (Manager.CreateNewSession o m (some rw) env).2.2.1 = some s) ∧
    (∀ j, j ≠ (Manager.CreateNewSession o m (some rw) env).2.2.1 →
      (Manager.CreateNewSession o m (some rw) env).2.1.sessions.lookup j = m.sessions.lookup j) ∧
    ((Manager.CreateNewSession o m (some rw) env).2.2.1 ∉ m.sessions →
      (Manager.CreateNewSession o m (some rw) env).2.1.size = m.size + 1) ∧
    ((Manager.CreateNewSession o m (some rw) env).2.2.1 ∈ m.sessions →
      (Manager.CreateNewSession o m (some rw) env).2.1.size = m.size) ∧
    (KeysOpen o m → FreshStart o env →
      (Manager.CreateNewSession o m (some rw) env).2.2.1 ∉ m.sessions) := by
  rcases NewSession_cases o rw env with ⟨e, _, h2⟩ | ⟨f, p, e, _, _, h2⟩ |
    ⟨f, p, cols, rows, cmd, hs, hz, h2⟩
  · rcases hN : NewSession o (some rw) env with ⟨o1, r⟩
    rw [hN] at h2; simp only at h2; subst h2
    simp [Manager.CreateNewSession, hN] at h
  · rcases hN : NewSession o (some rw) env with ⟨o1, r⟩
    rw [hN] at h2; simp only at h2; subst h2
    simp [Manager.CreateNewSession, hN] at h
  · rcases hN : NewSession o (some rw) env with ⟨o1, r⟩
    rw [hN] at h2; simp only at h2; subst h2
    have hc : Manager.CreateNewSession o m (some rw) env =
        (o1, ⟨m.sessions.insert (f : Int) ⟨(f : Int), some rw, ⟨(f : Int), some rw, f, cmd, none⟩⟩⟩,
          (f : Int), none) := by
      simp [Manager.CreateNewSession, hN, ttySession.ID]
    rw [hc]
    refine ⟨⟨_, rfl, rfl, rfl, ?_⟩, ?_, ?_, ?_, ?_⟩
    · exact AList.lookup_insert _
    · intro j hj
      exact AList.lookup_insert_ne hj
    · intro hn
      exact size_insert_of_not_mem m _ _ hn
    · intro hn
      exact size_insert_of_mem m _ _ hn
    · intro hk hf hmem
      obtain ⟨g, hg, hfg⟩ := hk _ (AList.mem_keys.mp hmem)
      have hfg2 : (f : Int) = (g : Int) := hfg
      have : f = g := by exact_mod_cast hfg2
      exact hf f p hs (this ▸ hg)

/-! ## The registry keys and the open devices -/

theorem NewSession_openPtys (o : World) (rw : Option Stream) (env : SpawnEnv) :
    (∀ f ∈ o.openPtys, f ∈ (NewSession o rw env).1.openPtys) ∧
    (∀ s, (NewSession o rw env).2 = .ok s →
      ∃ f ∈ (NewSession o rw env).1.openPtys, s.id = (f : Int)) := by
  cases rw with
  | none => simp [NewSession]
  | some r =>
    rcases hs : env.start with e | ⟨f, p⟩
    · simp [NewSession, NewPTY, initEnv_start_error _ _ _ _ _ hs, World.emit]
    · rcases hz : env.size with e | ⟨cols, rows⟩
      · simp only [NewSession, NewPTY, initEnv_size_error _ _ _ _ _ _ _ hs hz]
        simp only [List.mem_cons, reduceCtorEq, false_implies, implies_true, and_true]
        exact fun g hg => Or.inr hg
      · simp only [NewSession, NewPTY, initEnv_ok _ _ _ _ _ _ _ _ hs hz, ptyManager.ID]
        refine ⟨fun g hg => List.mem_cons_of_mem _ hg, ?_⟩
        intro s hsok
        injection hsok with hsok
        subst hsok
        exact ⟨f, List.mem_cons_self _ _, rfl⟩

theorem KeysOpen_init : KeysOpen World.init NewManager := by
  intro k hk
  simp [NewManager] at hk

theorem KeysOpen_CreateNewSession (o : World) (m : Manager) (rw : Option Stream) (env : SpawnEnv)
    (h : KeysOpen o m) :
    KeysOpen (Manager.CreateNewSession o m rw env).1 (Manager.CreateNewSession o m rw env).2.1 := by
  have hN := NewSession_openPtys o rw env
  rcases hr : NewSession o rw env with ⟨o1, e | s⟩
  · rw [hr] at hN
    intro k hk
    simp only [Manager.CreateNewSession, hr] at hk ⊢
    obtain ⟨f, hf, hkf⟩ := h k hk
    exact ⟨f, hN.1 f hf, hkf⟩
  · rw [hr] at hN
    intro k hk
    simp only [Manager.CreateNewSession, hr, AList.keys_insert, List.mem_cons] at hk ⊢
    rcases hk with rfl | hk
    · exact hN.2 s rfl
    · obtain ⟨f, hf, hkf⟩ := h k (List.mem_of_mem_erase hk)
      exact ⟨f, hN.1 f hf, hkf⟩

theorem KeysOpen_StartSession (o : World) (m : Manager) (id : Int) (h : KeysOpen o m) :
    KeysOpen (Manager.StartSession o m id).1 (Manager.StartSession o m id).2.1 := by
  cases hl : m.sessions.lookup id <;> simpa [Manager.StartSession, hl, World.emit] using h

theorem KeysOpen_CloseSession (o : World) (m : Manager) (id : Int) (h : KeysOpen o m) :
    KeysOpen (Manager.CloseSession o m id).1 (Manager.CloseSession o m id).2.1 := by
  cases hl : m.sessions.lookup id with
  | none => simpa [Manager.CloseSession, hl] using h
  | some s =>
    have ho := StopPtyAndRestore_openPtys o s.ptyHandler
    rcases hc : ptyManager.StopPtyAndRestore o s.ptyHandler with ⟨o1, st⟩
    rw [hc] at ho
    simp only at ho
    intro k hk
    cases st with
    | returned =>
      simp only [Manager.CloseSession, hl, ttySession.Close, ptyManager.Close, hc,
        AList.keys_erase] at hk ⊢
      obtain ⟨f, hf, hkf⟩ := h k (List.mem_of_mem_erase hk)
      exact ⟨f, ho ▸ hf, hkf⟩
    | blocked =>
      simp only [Manager.CloseSession, hl, ttySession.Close, ptyManager.Close, hc] at hk ⊢
      obtain ⟨f, hf, hkf⟩ := h k hk
      exact ⟨f, ho ▸ hf, hkf⟩
    | panicked =>
      simp only [Manager.CloseSession, hl, ttySession.Close, ptyManager.Close, hc] at hk ⊢
      obtain ⟨f, hf, hkf⟩ := h k hk
      exact ⟨f, ho ▸ hf, hkf⟩

theorem KeysOpen_emit (o : World) (m : Manager) (e : Event) (h : KeysOpen o m) :
    KeysOpen (o.emit e) m := h

/-- Every state the operations of the manager reach from `NewManager` has all
its registry keys among the open devices. -/
theorem Reachable.keysOpen {o : World} {m : Manager} (h : Reachable o m) : KeysOpen o m := by
  induction h with
  | init => exact KeysOpen_init
  | create o m rw env _ _ ih => exact KeysOpen_CreateNewSession o m rw env ih
  | start o m id _ ih => exact KeysOpen_StartSession o m id ih
  | close o m id _ ih => exact KeysOpen_CloseSession o m id ih
  | call o m e _ ih => exact KeysOpen_emit o m e ih

theorem KeysOpen_world0_manager0 : KeysOpen world0 manager0 := by
  intro k hk
  have hk5 : k = 5 := by simpa [manager0, AList.keys_insert] using hk
  exact ⟨5, by simp [world0], by simp [hk5]⟩

theorem FreshStart_world0_env1 : FreshStart world0 env1 := by
  intro f p h
  have hf : f = 6 := by
    simp only [env1] at h
    injection h with h
    exact (congrArg Prod.fst h).symm
  simp [world0, hf]

/-- C3: for every registry state whose keys are descriptors of open pty devices
(every state the operations of the manager reach, `Reachable.keysOpen`), the
operating system handing out a descriptor that is not open, and for every remote
stream that is not nil for which session construction succeeds,
`CreateNewSession` returns an id that was not a key of the registry before the
call, the registry afterwards maps that id to the new session (and every other
id to what it mapped to before), and the registry has exactly one more entry. -/
theorem CreateNewSession_fresh_id (o : World) (m : Manager) (rw : Stream) (env : SpawnEnv)
    (hk : KeysOpen o m) (hf : FreshStart o env)
    (h : (Manager.CreateNewSession o m (some rw) env).2.2.2 = none) :
    (Manager.CreateNewSession o m (some rw) env).2.2.1 ∉ m.sessions ∧
    (∃ s, (NewSession o (some rw) env).2 = .ok s ∧
      s.id = (Manager.CreateNewSession o m (some rw) env).2.2.1 ∧ s.rw = some rw ∧
      (Manager.CreateNewSession o m (some rw) env).2.1.sessions.lookup
        (Manager.CreateNewSession o m (some rw) env).2.2.1 = some s) ∧
    (∀ j, j ≠ (Manager.CreateNewSession o m (some rw) env).2.2.1 →
      (Manager.CreateNewSession o m (some rw) env).2.1.sessions.lookup j = m.sessions.lookup j) ∧
    (Manager.CreateNewSession o m (some rw) env).2.1.size = m.size + 1 := by
  have hs := CreateNewSession_success o m rw env h
  have hn := hs.2.2.2.2 hk hf
  exact ⟨hn, hs.1, hs.2.1, hs.2.2.1 hn⟩

theorem CreateNewSession_fresh_id_witness :
    KeysOpen world0 manager0 ∧ FreshStart world0 env1 ∧
    (Manager.CreateNewSession world0 manager0 (some 2) env1).2.2.2 = none ∧
    (Manager.CreateNewSession world0 manager0 (some 2) env1).2.2.1 ∉ manager0.sessions ∧
    (Manager.CreateNewSession world0 manager0 (some 2) env1).2.1.size = manager0.size + 1 :=
  have h := CreateNewSession_fresh_id world0 manager0 2 env1 KeysOpen_world0_manager0
    FreshStart_world0_env1 rfl
  ⟨KeysOpen_world0_manager0, FreshStart_world0_env1, rfl, h.1, h.2.2.2⟩

/-! ## Failure of the terminal size query -/

/-- C5, the code at the failing input: `ptyDevice.Start` succeeds (device 5,
child 100) and `terminal.GetSize` fails. `initEnv` and `NewPTY` return the error
after two calls, neither of which closes the device or signals the child: the
device is open and the child is live, where neither was before the call, and
the caller gets no handle to either. -/
theorem initEnv_size_failure_leaks :
    ptyManager.initEnv World.init "bash" [] envNoTerminal =
      (⟨[5], [100], [.ptyStart "bash" [], .getSize]⟩, .error "inappropriate ioctl for device") ∧
    NewPTY World.init (some 1) envNoTerminal =
      (⟨[5], [100], [.ptyStart "bash" [], .getSize]⟩, .error "inappropriate ioctl for device") ∧
    (NewPTY World.init (some 1) envNoTerminal).1.openPtys ≠ World.init.openPtys ∧
    (NewPTY World.init (some 1) envNoTerminal).1.liveChildren ≠ World.init.liveChildren := by
  refine ⟨rfl, rfl, ?_, ?_⟩ <;> decide

/-! ## Teardown of a bridge -/

/-- C6, as stated, fails: `MakeRaw` succeeds and saves the mode 9, the shell
exits (`Wait` returns nil) and `Close` is called once afterwards.
`terminal.Restore` is called twice when the copy ended without error, and three
times when the copy failed as well (the read of the device fails once the shell
is gone). -/
theorem Run_then_Close_restores_again :
    restoreCount (lifecycle World.init pty0 ⟨some 9, none⟩ (some none) (some none) 1).trace = 2 ∧
    (lifecycle World.init pty0 ⟨some 9, none⟩ (some none) (some none) 1).trace =
      [.makeRaw, .goCopy 5, .wait 100,
       .ignoreSIGWINCH, .signal 100 .SIGTERM, .signal 100 .SIGKILL, .restore (some 9),
       .ignoreSIGWINCH, .signal 100 .SIGTERM, .signal 100 .SIGKILL, .restore (some 9)] ∧
    restoreCount (lifecycle World.init pty0 ⟨some 9, none⟩ (some none)
      (some (some "input/output error")) 1).trace = 3 ∧
    (lifecycle World.init pty0 ⟨some 9, none⟩ (some none)
      (some (some "input/output error")) 1).trace =
      [.makeRaw, .goCopy 5, .wait 100,
       .ignoreSIGWINCH, .signal 100 .SIGTERM, .signal 100 .SIGKILL, .restore (some 9),
       .ignoreSIGWINCH, .signal 100 .SIGTERM, .signal 100 .SIGKILL, .restore (some 9),
       .sinkClose 1,
       .ignoreSIGWINCH, .signal 100 .SIGTERM, .signal 100 .SIGKILL, .restore (some 9)] := by
  refine ⟨?_, ?_, ?_, ?_⟩ <;> decide

/-- C6, amended: in the lifecycle of a bridge that has a sink and for which
`MakeRaw` stored a saved terminal mode, `terminal.Restore` is called once for
each teardown trigger that fires: once when `Run` reaches its deferred
`StopPtyAndRestore`, once when the device-to-sink copy fails, once for each call
of `Close`. When `MakeRaw` succeeded and `Run` returns after the shell exits
(`Wait` returned), one `Close` afterwards makes it two calls as long as the copy
has not failed, and three when the copy failed. -/
theorem lifecycle_restoreCount (o : World) (pty : ptyManager) (w : Stream)
    (hw : pty.w = some w) (mr : MakeRawResult) (st : TermState) (hs : mr.state = some st)
    (wt cp : Option (Option Error)) (closes : Nat) :
    restoreCount (lifecycle o pty mr wt cp closes).trace =
      restoreCount o.trace + (runTearsDown pty mr wt).toNat + (copyTearsDown pty mr cp).toNat
        + closes ∧
    (mr.err = none → ∀ v : Option Error,
      restoreCount (lifecycle o pty mr (some v) none 1).trace = restoreCount o.trace + 2 ∧
      restoreCount (lifecycle o pty mr (some v) (some none) 1).trace = restoreCount o.trace + 2 ∧
      ∀ e : Error,
        restoreCount (lifecycle o pty mr (some v) (some (some e)) 1).trace
          = restoreCount o.trace + 3) := by
  rcases pty with ⟨fd, w0, file, cmd, st0⟩
  rcases mr with ⟨ms, me⟩
  simp only at hw hs
  subst hw hs
  have key : ∀ (wt cp : Option (Option Error)) (closes : Nat),
      restoreCount (lifecycle o ⟨fd, some w, file, cmd, st0⟩ ⟨some st, me⟩ wt cp closes).trace =
        restoreCount o.trace + (runTearsDown ⟨fd, some w, file, cmd, st0⟩ ⟨some st, me⟩ wt).toNat
          + (copyTearsDown ⟨fd, some w, file, cmd, st0⟩ ⟨some st, me⟩ cp).toNat + closes := by
    intro wt cp closes
    have hT : ∀ o1 : World, ptyManager.StopPtyAndRestore o1 ⟨fd, some w, file, cmd, some st⟩ =
        (⟨o1.openPtys, o1.liveChildren,
          o1.trace ++ teardownEvents ⟨fd, some w, file, cmd, some st⟩⟩, .returned) :=
      fun o1 => StopPtyAndRestore_saved o1 _ st rfl
    have hC : ∀ (n : Nat) (o1 : World),
        restoreCount (closeTimes n o1 ⟨fd, some w, file, cmd, some st⟩).1.trace
          = restoreCount o1.trace + n :=
      fun n o1 => (closeTimes_saved n o1 _ st rfl).2
    cases me <;> cases wt <;> rcases cp with _ | _ | _ <;>
      simp [lifecycle, ptyManager.Run, ptyManager.MakeRaw, ptyManager.Wait, ptyManager.copyTask,
        hT, hC, restoreCount_append, restoreCount_teardownEvents, runTearsDown, copyTearsDown,
        World.emit] <;>
      simp [restoreCount, Event.isRestore, teardownEvents]
  refine ⟨key wt cp closes, ?_⟩
  intro he v
  simp only at he
  subst he
  refine ⟨?_, ?_, ?_⟩
  · rw [key]; simp [runTearsDown, copyTearsDown]
  · rw [key]; simp [runTearsDown, copyTearsDown]
  · intro e
    rw [key]; simp [runTearsDown, copyTearsDown]

theorem lifecycle_restoreCount_witness :
    pty0.w = some 1 ∧ (MakeRawResult.mk (some 9) none).state = some 9 ∧
    restoreCount (lifecycle world0 pty0 ⟨some 9, none⟩ (some none)
      (some (some "input/output error")) 2).trace = restoreCount world0.trace + 1 + 1 + 2 :=
  have h := lifecycle_restoreCount world0 pty0 1 rfl ⟨some 9, none⟩ 9 rfl (some none)
    (some (some "input/output error")) 2
  ⟨rfl, rfl, h.1⟩

/-- For a bridge with a sink, a `MakeRaw` that stored a saved terminal mode and
every value `Wait` returns, `Run` returns, and the last four calls it made are
the combined teardown in this order: SIGWINCH ignored, SIGTERM to the child,
SIGKILL to the child, terminal restored to the saved mode. What precedes them is
`MakeRaw` alone when it returned an error, and `MakeRaw`, the launch of the copy
goroutine and `Wait` when it did not. -/
theorem Run_teardown_order (o : World) (pty : ptyManager) (w : Stream) (hw : pty.w = some w)
    (mr : MakeRawResult) (st : TermState) (hs : mr.state = some st) (wt : Option Error) :
    (ptyManager.Run o pty mr (some wt)).status = .returned ∧
    (ptyManager.Run o pty mr (some wt)).pty.terminalInitState = some st ∧
    ∃ pre, (ptyManager.Run o pty mr (some wt)).world.trace = o.trace ++ pre ++
        [.ignoreSIGWINCH, .signal pty.command.process .SIGTERM,
         .signal pty.command.process .SIGKILL, .restore (some st)] ∧
      (mr.err ≠ none → pre = [.makeRaw]) ∧
      (mr.err = none → pre = [.makeRaw, .goCopy pty.fd, .wait pty.command.process]) := by
  rcases pty with ⟨fd, w0, file, cmd, st0⟩
  rcases mr with ⟨ms, me⟩
  simp only at hw hs
  subst hw hs
  have hT : ∀ o1 : World, ptyManager.StopPtyAndRestore o1 ⟨fd, some w, file, cmd, some st⟩ =
      (⟨o1.openPtys, o1.liveChildren,
        o1.trace ++ teardownEvents ⟨fd, some w, file, cmd, some st⟩⟩, .returned) :=
    fun o1 => StopPtyAndRestore_saved o1 _ st rfl
  cases me with
  | some e =>
    refine ⟨?_, rfl, [.makeRaw], ?_, fun _ => rfl, fun h => by simp at h⟩
    · simp [ptyManager.Run, ptyManager.MakeRaw, hT]
    · simp [ptyManager.Run, ptyManager.MakeRaw, hT, teardownEvents, World.emit]
  | none =>
    refine ⟨?_, rfl, [.makeRaw, .goCopy fd, .wait cmd.process], ?_, fun h => by simp at h,
      fun _ => rfl⟩
    · simp [ptyManager.Run, ptyManager.MakeRaw, ptyManager.Wait, hT]
    · simp [ptyManager.Run, ptyManager.MakeRaw, ptyManager.Wait, hT, teardownEvents, World.emit]

theorem Run_teardown_order_example :
    (ptyManager.Run world0 pty0 ⟨some 9, none⟩ (some none)).status = .returned ∧
    (ptyManager.Run world0 pty0 ⟨some 9, none⟩ (some none)).world.trace =
      world0.trace ++ [.makeRaw, .goCopy 5, .wait 100,
        .ignoreSIGWINCH, .signal 100 .SIGTERM, .signal 100 .SIGKILL, .restore (some 9)] := by
  constructor <;> decide

/-- C10, the code at the failing input: a bridge built by `NewPTY` (sink
present), `MakeRaw` returns `(nil, err)`. `Run` stores the nil state, returns
from the error branch into the deferred teardown, which ignores SIGWINCH, sends
SIGTERM and SIGKILL and calls `terminal.Restore(0, nil)`; that call panics:
`Run` does not return and the host terminal is not restored. `Wait` is never
called, whatever it would return. -/
theorem Run_MakeRaw_error_panics :
    NewPTY World.init (some 1) env0 = (world0, .ok pty0) ∧
    (ptyManager.Run world0 pty0 ⟨none, some "inappropriate ioctl for device"⟩
      (some none)).status = .panicked ∧
    (ptyManager.Run world0 pty0 ⟨none, some "inappropriate ioctl for device"⟩
      (some none)).world.trace =
      world0.trace ++
        [.makeRaw, .ignoreSIGWINCH, .signal 100 .SIGTERM, .signal 100 .SIGKILL, .restore none] ∧
    (ptyManager.Run world0 pty0 ⟨none, some "inappropriate ioctl for device"⟩
      (some (some "exit status 1"))).status = .panicked := by
  refine ⟨rfl, ?_, ?_, ?_⟩ <;> decide

/-- C9, the code at two failing inputs. A session is created and closed without
having been started: the `Close` of `CloseSession` calls `terminal.Restore` with
the nil `terminalInitState` of the new bridge. `Run` is executed and `MakeRaw`
returns `(nil, err)`: the deferred teardown calls `terminal.Restore` with nil. -/
theorem Restore_reads_nil_state :
    (Manager.CreateNewSession World.init NewManager (some 1) env0).2.2 = (5, none) ∧
    (Manager.CloseSession (Manager.CreateNewSession World.init NewManager (some 1) env0).1
      (Manager.CreateNewSession World.init NewManager (some 1) env0).2.1 5).1.trace =
      [.ptyStart "bash" [], .getSize, .setsize 5 24 80,
       .ignoreSIGWINCH, .signal 100 .SIGTERM, .signal 100 .SIGKILL, .restore none] ∧
    (ptyManager.Run world0 pty0 ⟨none, some "inappropriate ioctl for device"⟩ none).world.trace =
      world0.trace ++
        [.makeRaw, .ignoreSIGWINCH, .signal 100 .SIGTERM, .signal 100 .SIGKILL, .restore none] := by
  refine ⟨rfl, ?_, ?_⟩ <;> decide

/-! ## The read loop of a session -/

theorem onWrite_eq (o : World) (session : ttySession) (res : Int × Option Error)
    (data : List Byte) :
    ttySession.onWrite o session res data = o.emit (.ptyWrite session.ptyHandler.ptyFile data) := by
  rcases res with ⟨n, _ | e⟩ <;> simp [ttySession.onWrite, ptyManager.Write]

theorem readLoop_chunks (session : ttySession) (rw : Stream) (hrw : session.rw = some rw)
    (wr : Nat → Int × Option Error) (d : List Byte) (e : Error) (rest : List ReadResult) :
    ∀ (chunks : List (List Byte)) (o : World) (i : Nat), (∀ c ∈ chunks, c.length ≤ 128) →
      ttySession.readLoop session wr o i
          (chunks.map (fun c => ReadResult.mk c none) ++ ⟨d, some e⟩ :: rest) =
        (⟨o.openPtys, o.liveChildren,
          o.trace ++ loopEvents rw session.ptyHandler.ptyFile chunks⟩, .returned) := by
  intro chunks
  induction chunks with
  | nil =>
    intro o i _
    simp [ttySession.readLoop, ttySession.ReadAndHandle, hrw, World.emit, loopEvents]
  | cons c cs ih =>
    intro o i hlen
    have hc : c.length ≤ 128 := hlen c (List.mem_cons_self c cs)
    have hcs : ∀ x ∈ cs, x.length ≤ 128 := fun x hx => hlen x (List.mem_cons_of_mem c hx)
    simp [ttySession.readLoop, ttySession.ReadAndHandle, hrw, hc, onWrite_eq, ih _ _ hcs,
      World.emit, loopEvents]

theorem HandleConnection_eq (o : World) (session : ttySession) (rw : Stream)
    (hrw : session.rw = some rw) (wr : Nat → Int × Option Error) (chunks : List (List Byte))
    (hlen : ∀ c ∈ chunks, c.length ≤ 128) (d : List Byte) (e : Error) (rest : List ReadResult) :
    ttySession.HandleConnection o session wr
        (chunks.map (fun c => ReadResult.mk c none) ++ ⟨d, some e⟩ :: rest) =
      ⟨⟨o.openPtys, o.liveChildren, o.trace ++
          .goRun session.ptyHandler.fd :: loopEvents rw session.ptyHandler.ptyFile chunks⟩,
        { session with rw := none }, .returned⟩ := by
  simp [ttySession.HandleConnection, readLoop_chunks session rw hrw wr d e rest chunks _ _ hlen,
    World.emit]

theorem writesOf_loopEvents (rw : Stream) (f : File) (chunks : List (List Byte)) :
    writesOf (loopEvents rw f chunks) = chunks.map (fun c => (f, c)) := by
  induction chunks with
  | nil => simp [writesOf, loopEvents]
  | cons c cs ih =>
    simp only [writesOf] at ih
    simp [writesOf, loopEvents, ih]

theorem readCount_loopEvents (rw : Stream) (f : File) (chunks : List (List Byte)) :
    readCount (loopEvents rw f chunks) = chunks.length + 1 := by
  induction chunks with
  | nil => simp [readCount, loopEvents]
  | cons c cs ih =>
    simp only [readCount] at ih
    simp [readCount, loopEvents, ih]

theorem loopEvents_getLast (rw : Stream) (f : File) (chunks : List (List Byte)) :
    (loopEvents rw f chunks).getLast? = some (.rwRead rw) := by
  induction chunks with
  | nil => simp [loopEvents]
  | cons c cs ih =>
    cases hl : loopEvents rw f cs with
    | nil => rw [hl] at ih; simp at ih
    | cons x xs =>
      rw [hl] at ih
      simp [loopEvents, hl, List.getLast?_cons_cons, ih]

theorem loopEvents_no_teardown (rw : Stream) (f : File) (chunks : List (List Byte)) :
    ∀ x ∈ loopEvents rw f chunks, x.isTeardown = false := by
  induction chunks with
  | nil => simp [loopEvents, Event.isTeardown]
  | cons c cs ih =>
    intro x hx
    simp only [loopEvents, List.mem_cons] at hx
    rcases hx with rfl | rfl | hx
    · rfl
    · rfl
    · exact ih x hx

/-- C8: when the reads of the remote stream return the chunks `chunks` (each of
at most 128 bytes) without error and the next read returns an error,
`HandleConnection` returns; after launching `Run` it made, for each chunk in
order, one read and one bridge write of that chunk, then the failing read and no
call after it: exactly `k` writes whose payloads are the chunks in order,
whatever the writes return (`wr`), and exactly `k + 1` reads, whatever reads
`rest` would have returned. On return the session's stream reference is nil and
its id and bridge are the ones before. -/
theorem HandleConnection_forwards_chunks (o : World) (session : ttySession) (rw : Stream)
    (hrw : session.rw = some rw) (wr : Nat → Int × Option Error) (chunks : List (List Byte))
    (hlen : ∀ c ∈ chunks, c.length ≤ 128) (d : List Byte) (e : Error) (rest : List ReadResult) :
    (ttySession.HandleConnection o session wr
      (chunks.map (fun c => ReadResult.mk c none) ++ ⟨d, some e⟩ :: rest)).status = .returned ∧
    (∃ ev, (ttySession.HandleConnection o session wr
        (chunks.map (fun c => ReadResult.mk c none) ++ ⟨d, some e⟩ :: rest)).world.trace
          = o.trace ++ ev ∧
      ev = .goRun session.ptyHandler.fd :: loopEvents rw session.ptyHandler.ptyFile chunks ∧
      writesOf ev = chunks.map (fun c => (session.ptyHandler.ptyFile, c)) ∧
      (writesOf ev).length = chunks.length ∧
      readCount ev = chunks.length + 1 ∧
      ev.getLast? = some (.rwRead rw)) ∧
    (ttySession.HandleConnection o session wr
      (chunks.map (fun c => ReadResult.mk c none) ++ ⟨d, some e⟩ :: rest)).session.rw = none ∧
    (ttySession.HandleConnection o session wr
      (chunks.map (fun c => ReadResult.mk c none) ++ ⟨d, some e⟩ :: rest)).session.id
        = session.id ∧
    (ttySession.HandleConnection o session wr
      (chunks.map (fun c => ReadResult.mk c none) ++ ⟨d, some e⟩ :: rest)).session.ptyHandler
        = session.ptyHandler := by
  rw [HandleConnection_eq o session rw hrw wr chunks hlen d e rest]
  refine ⟨rfl, ⟨_, rfl, rfl, ?_, ?_, ?_, ?_⟩, rfl, rfl, rfl⟩
  · have h := writesOf_loopEvents rw session.ptyHandler.ptyFile chunks
    simp only [writesOf] at h
    simp [writesOf, h]
  · have h := writesOf_loopEvents rw session.ptyHandler.ptyFile chunks
    simp only [writesOf] at h
    simp [writesOf, h]
  · have h := readCount_loopEvents rw session.ptyHandler.ptyFile chunks
    simp only [readCount] at h
    simp [readCount, h]
  · have h := loopEvents_getLast rw session.ptyHandler.ptyFile chunks
    cases hl : loopEvents rw session.ptyHandler.ptyFile chunks with
    | nil => rw [hl] at h; simp at h
    | cons x xs => rw [hl] at h; simp [List.getLast?_cons_cons, h]

theorem HandleConnection_forwards_chunks_witness :
    session0.rw = some 1 ∧ (∀ c ∈ [[(104 : Byte), 105], [10]], c.length ≤ 128) ∧
    (ttySession.HandleConnection world0 session0 (fun _ => (0, some "EIO"))
      ([[(104 : Byte), 105], [10]].map (fun c => ReadResult.mk c none) ++
        ⟨[], some "EOF"⟩ :: [⟨[33], none⟩])).status = .returned ∧
    (ttySession.HandleConnection world0 session0 (fun _ => (0, some "EIO"))
      ([[(104 : Byte), 105], [10]].map (fun c => ReadResult.mk c none) ++
        ⟨[], some "EOF"⟩ :: [⟨[33], none⟩])).session.rw = none :=
  have hl : ∀ c ∈ [[(104 : Byte), 105], [10]], c.length ≤ 128 := by decide
  have h := HandleConnection_forwards_chunks world0 session0 1 rfl (fun _ => (0, some "EIO"))
    [[104, 105], [10]] hl [] "EOF" [⟨[33], none⟩]
  ⟨rfl, hl, h.1, h.2.2.1⟩

/-! ## A failing read and the teardown of the bridge -/

/-- C7, as stated, fails: the first read of the remote stream fails (the far end
closed it) while the shell is alive and silent (`MakeRaw` succeeded, `Wait` has
not returned, the copy is waiting for device output). `HandleConnection` returns
after that read, and no thread of the session has sent a signal to the child or
made any other teardown call. -/
theorem remote_close_sends_no_signal :
    (ttySession.HandleConnection world0 session0 (fun _ => (0, none))
      [⟨[], some "EOF"⟩]).status = .returned ∧
    (sessionThreads world0 session0 (fun _ => (0, none)) [⟨[], some "EOF"⟩]
      ⟨some 9, none⟩ none none).trace =
      world0.trace ++ [.goRun 5, .rwRead 1, .makeRaw, .goCopy 5, .wait 100] ∧
    (∀ x ∈ (sessionThreads world0 session0 (fun _ => (0, none)) [⟨[], some "EOF"⟩]
      ⟨some 9, none⟩ none none).trace, x.isSignal = false ∧ x.isTeardown = false) := by
  refine ⟨rfl, ?_, ?_⟩ <;> decide

/-- C7, amended: when a read of the remote stream fails, the read loop ends with
that read call and `HandleConnection` returns with the stream reference set to
nil; the calls of `HandleConnection` are the launch of `Run`, reads and bridge
writes, none of them a teardown call. In the session as a whole no signal is
sent and no restore is made as long as `Run` has not reached its deferred
teardown (`MakeRaw` succeeded and `Wait` has not returned) and the
device-to-sink copy has not failed. -/
theorem HandleConnection_read_failure (o : World) (session : ttySession) (rw : Stream)
    (hrw : session.rw = some rw) (wr : Nat → Int × Option Error) (chunks : List (List Byte))
    (hlen : ∀ c ∈ chunks, c.length ≤ 128) (d : List Byte) (e : Error) (rest : List ReadResult)
    (mr : MakeRawResult) (wt cp : Option (Option Error)) :
    (ttySession.HandleConnection o session wr
      (chunks.map (fun c => ReadResult.mk c none) ++ ⟨d, some e⟩ :: rest)).status = .returned ∧
    (ttySession.HandleConnection o session wr
      (chunks.map (fun c => ReadResult.mk c none) ++ ⟨d, some e⟩ :: rest)).session.rw = none ∧
    (∃ ev, (ttySession.HandleConnection o session wr
        (chunks.map (fun c => ReadResult.mk c none) ++ ⟨d, some e⟩ :: rest)).world.trace
          = o.trace ++ ev ∧
      ev.getLast? = some (.rwRead rw) ∧ readCount ev = chunks.length + 1 ∧
      ∀ x ∈ ev, x.isTeardown = false) ∧
    (runTearsDown session.ptyHandler mr wt = false →
      copyTearsDown session.ptyHandler mr cp = false →
      ∃ ev, (sessionThreads o session wr
          (chunks.map (fun c => ReadResult.mk c none) ++ ⟨d, some e⟩ :: rest) mr wt cp).trace
            = o.trace ++ ev ∧
        ∀ x ∈ ev, x.isTeardown = false) := by
  have hlast := loopEvents_getLast rw session.ptyHandler.ptyFile chunks
  have hcount := readCount_loopEvents rw session.ptyHandler.ptyFile chunks
  have hno := loopEvents_no_teardown rw session.ptyHandler.ptyFile chunks
  simp only [sessionThreads]
  rw [HandleConnection_eq o session rw hrw wr chunks hlen d e rest]
  refine ⟨rfl, rfl, ⟨_, rfl, ?_, ?_, ?_⟩, ?_⟩
  · cases hl : loopEvents rw session.ptyHandler.ptyFile chunks with
    | nil => rw [hl] at hlast; simp at hlast
    | cons x xs => rw [hl] at hlast; simp [List.getLast?_cons_cons, hlast]
  · simp only [readCount] at hcount
    simp [readCount, hcount]
  · intro x hx
    rcases List.mem_cons.mp hx with rfl | hx
    · rfl
    · exact hno x hx
  · intro hr hc
    rcases hp : session.ptyHandler with ⟨fd, w, file, cmd, st⟩
    rcases mr with ⟨ms, me⟩
    rw [hp] at hr hc hno
    cases w with
    | none =>
      refine ⟨.goRun fd :: loopEvents rw file chunks, ?_, ?_⟩
      · simp [ptyManager.Run]
      · intro x hx
        rcases List.mem_cons.mp hx with rfl | hx
        · rfl
        · exact hno x hx
    | some w0 =>
      cases me with
      | some err => simp [runTearsDown] at hr
      | none =>
        cases wt with
        | some v => simp [runTearsDown] at hr
        | none =>
          refine ⟨.goRun fd :: loopEvents rw file chunks ++ [.makeRaw, .goCopy fd, .wait cmd.process],
            ?_, ?_⟩
          · rcases cp with _ | _ | err
            · simp [ptyManager.Run, ptyManager.MakeRaw, ptyManager.Wait, ptyManager.copyTask,
                World.emit]
            · simp [ptyManager.Run, ptyManager.MakeRaw, ptyManager.Wait, ptyManager.copyTask,
                World.emit]
            · simp [copyTearsDown] at hc
          · intro x hx
            rcases List.mem_append.mp hx with hx | hx
            · rcases List.mem_cons.mp hx with rfl | hx
              · rfl
              · exact hno x hx
            · simp only [List.mem_cons, List.mem_singleton, List.not_mem_nil, or_false] at hx
              rcases hx with rfl | rfl | rfl <;> rfl

theorem HandleConnection_read_failure_witness :
    session0.rw = some 1 ∧ (∀ c ∈ [[(104 : Byte), 105]], c.length ≤ 128) ∧
    (ttySession.HandleConnection world0 session0 (fun _ => (2, none))
      ([[(104 : Byte), 105]].map (fun c => ReadResult.mk c none) ++
        ⟨[], some "EOF"⟩ :: [])).status = .returned ∧
    (ttySession.HandleConnection world0 session0 (fun _ => (2, none))
      ([[(104 : Byte), 105]].map (fun c => ReadResult.mk c none) ++
        ⟨[], some "EOF"⟩ :: [])).session.rw = none :=
  have hl : ∀ c ∈ [[(104 : Byte), 105]], c.length ≤ 128 := by decide
  have h := HandleConnection_read_failure world0 session0 1 rfl (fun _ => (2, none))
    [[104, 105]] hl [] "EOF" [] ⟨some 9, none⟩ none none
  ⟨rfl, hl, h.1, h.2.1⟩

end Tty
